import Mathlib

/-!
Shallow embedding of the FastAGI benchmarking tool `agistress` (agistress.go).

The program opens many concurrent FastAGI client sessions, drives one
handshake/reply exchange per session (`agiConnection`), aggregates the
counters `Active`, `Count`, `Fail` and a rolling average of session
durations (`calcAvrg`), and drains on shutdown (`agiBench`,
`consoleOutput`).

The per-session behaviour is embedded as a pure function from the
session's environment (connection success, the inbound lines delivered by
the scanner until end-of-stream, the configured payload and reply delay)
to the list of observable events the Go code performs, in program order.
The concurrent engine (scheduler lanes, shutdown flag, counters) is
embedded as a small-step transition system over a counting abstraction of
the goroutine states.
-/

namespace Agistress

/-- Fixed success reply sent for every ordinary inbound line
(`successReply` in agistress.go). -/
def successReply : String := "200 result=0\n"

/-- Terminal acknowledgment sent on the hangup sentinel
(`hangupReply` in agistress.go). -/
def hangupReply : String := "200 result=1\nHANGUP\n"

/-- Hangup sentinel line (`hangup` in agistress.go). -/
def hangup : String := "HANGUP"

/-- Failure sentinel line (`failure` in agistress.go). -/
def failure : String := "FAILURE"

/-- One scripted payload entry: the message to send and the delay in
milliseconds to wait before sending it (`AgiMsg` in agistress.go). -/
structure AgiMsg where
  msg : String
  delay : Nat
deriving DecidableEq

/-- Observable actions of one session worker (`agiConnection`), in program
order: a line received from the scanner, a sleep, a write to the
connection, closing the connection, and the atomic counter/channel
operations (`Fail`/`Active`/`Count` updates and the duration sent on
`TimeChan`). -/
inductive Event where
  | recv (s : String)
  | sleep (n : Nat)
  | send (s : String)
  | close
  | incrFail
  | incrActive
  | decrActive
  | incrCount
  | sendDur (n : Nat)
deriving DecidableEq

/-- How the reply loop of `agiConnection` terminated: via the failure
sentinel (early return), via the hangup sentinel (`break`), because the
scanner hit end-of-stream, or because the script was exhausted. -/
inductive LoopExit where
  | failed
  | hungup
  | eof
  | exhausted
deriving DecidableEq

/-- Reply loop of `agiConnection` when no payload is configured
(agistress.go lines 206-230): for each scanned line, return on the
failure sentinel (close, `Fail`++, `Active`--), acknowledge and break on
the hangup sentinel, otherwise sleep `ReplyDelay` and send the fixed
success reply.  The input list holds the lines the scanner delivers
before end-of-stream. -/
def replyLoopDefault (d : Nat) : List String → List Event × LoopExit
  | [] => ([], .eof)
  | l :: rest =>
    if l = failure then ([.recv l, .close, .incrFail, .decrActive], .failed)
    else if l = hangup then ([.recv l, .send hangupReply], .hungup)
    else
      let r := replyLoopDefault d rest
      (.recv l :: .sleep d :: .send successReply :: r.1, r.2)

/-- Reply loop of `agiConnection` when a payload is configured
(agistress.go lines 231-258): iterate over the payload entries; stop when
the scanner hits end-of-stream; classify each line first (failure and
hangup sentinels as in the default loop), otherwise sleep the entry's
delay and send its message followed by a newline. -/
def replyLoopScript : List AgiMsg → List String → List Event × LoopExit
  | [], _ => ([], .exhausted)
  | _ :: _, [] => ([], .eof)
  | p :: ps, l :: rest =>
    if l = failure then ([.recv l, .close, .incrFail, .decrActive], .failed)
    else if l = hangup then ([.recv l, .send hangupReply], .hungup)
    else
      let r := replyLoopScript ps rest
      (.recv l :: .sleep p.delay :: .send (p.msg ++ "\n") :: r.1, r.2)

/-- Total time spent sleeping in a trace.  The session duration reported
on `TimeChan` is the elapsed wall time, which is this total plus
whatever time connecting, reading and writing took. -/
def sleepTotal : List Event → Nat
  | [] => 0
  | .sleep n :: tr => n + sleepTotal tr
  | _ :: tr => sleepTotal tr

/-- Event trace of one run of `agiConnection` (agistress.go lines
178-272).  `connectOk` tells whether the dial succeeded; `lines` are the
inbound lines the scanner delivers before end-of-stream; `extra` is the
part of the elapsed wall time not spent in the loop's sleeps (connect,
I/O and scheduling time), so the duration reported on `TimeChan` is
`sleepTotal + extra`.  On dial failure the function increments `Fail` and
returns at once.  On success it increments `Active`, writes the
environment block, runs the reply loop; the failure-sentinel path closes,
increments `Fail`, decrements `Active` and returns, while every other
exit closes the connection, reports the duration, decrements `Active`
and increments `Count`. -/
def agiConnection (connectOk : Bool) (env : String) (payload : Option (List AgiMsg))
    (replyDelay : Nat) (lines : List String) (extra : Nat) : List Event :=
  if connectOk = false then [.incrFail]
  else
    let r := match payload with
      | none => replyLoopDefault replyDelay lines
      | some ps => replyLoopScript ps lines
    let pre : List Event := .incrActive :: .send env :: r.1
    match r.2 with
    | .failed => pre
    | _ => pre ++ [.close, .sendDur (sleepTotal r.1 + extra), .decrActive, .incrCount]

/-- Messages written to the connection in a trace, in order. -/
def sends : List Event → List String
  | [] => []
  | .send s :: tr => s :: sends tr
  | _ :: tr => sends tr

/-- Durations reported on `TimeChan` in a trace, in order. -/
def durs : List Event → List Nat
  | [] => []
  | .sendDur n :: tr => n :: durs tr
  | _ :: tr => durs tr

/-- Number of `conn.Close()` calls in a trace. -/
def closeCount : List Event → Nat
  | [] => 0
  | .close :: tr => closeCount tr + 1
  | _ :: tr => closeCount tr

/-- Number of increments of the failure counter `Fail` in a trace. -/
def failIncrs : List Event → Nat
  | [] => 0
  | .incrFail :: tr => failIncrs tr + 1
  | _ :: tr => failIncrs tr

/-- Number of increments of the completed counter `Count` in a trace. -/
def countIncrs : List Event → Nat
  | [] => 0
  | .incrCount :: tr => countIncrs tr + 1
  | _ :: tr => countIncrs tr

/-- Net change of the `Active` counter over a trace. -/
def activeDelta : List Event → Int
  | [] => 0
  | .incrActive :: tr => activeDelta tr + 1
  | .decrActive :: tr => activeDelta tr - 1
  | _ :: tr => activeDelta tr

/-- State of the rolling-average calculator `calcAvrg` (agistress.go
lines 283-293): the stored average `AvrDur` and the sample counter
`sessions`. -/
structure AvgState where
  avrDur : Nat
  sessions : Nat
deriving DecidableEq

/-- One iteration of `calcAvrg` for a received duration `dur`:
`sessions++`, `AvrDur = (AvrDur*(sessions-1)+dur)/sessions` with int64
(truncated) division, then `sessions = 0` once `sessions >= 10000`.
Durations are nonnegative nanosecond counts, so truncated division
coincides with `Nat` division. -/
def calcStep (s : AvgState) (dur : Nat) : AvgState :=
  let n := s.sessions + 1
  let a := (s.avrDur * (n - 1) + dur) / n
  if 10000 ≤ n then ⟨a, 0⟩ else ⟨a, n⟩

/-- The `calcAvrg` loop over a list of durations read from `TimeChan`. -/
def calcRun (s : AvgState) (xs : List Nat) : AvgState :=
  xs.foldl calcStep s

lemma sends_append (a b : List Event) : sends (a ++ b) = sends a ++ sends b := by
  induction a with
  | nil => simp [sends]
  | cons e tr ih => cases e <;> simp [sends, ih]

lemma durs_append (a b : List Event) : durs (a ++ b) = durs a ++ durs b := by
  induction a with
  | nil => simp [durs]
  | cons e tr ih => cases e <;> simp [durs, ih]

lemma closeCount_append (a b : List Event) :
    closeCount (a ++ b) = closeCount a + closeCount b := by
  induction a with
  | nil => simp [closeCount]
  | cons e tr ih => cases e <;> simp [closeCount, ih] <;> omega

lemma failIncrs_append (a b : List Event) :
    failIncrs (a ++ b) = failIncrs a + failIncrs b := by
  induction a with
  | nil => simp [failIncrs]
  | cons e tr ih => cases e <;> simp [failIncrs, ih] <;> omega

lemma countIncrs_append (a b : List Event) :
    countIncrs (a ++ b) = countIncrs a + countIncrs b := by
  induction a with
  | nil => simp [countIncrs]
  | cons e tr ih => cases e <;> simp [countIncrs, ih] <;> omega

lemma sleepTotal_append (a b : List Event) :
    sleepTotal (a ++ b) = sleepTotal a + sleepTotal b := by
  induction a with
  | nil => simp [sleepTotal]
  | cons e tr ih => cases e <;> simp [sleepTotal, ih] <;> omega

lemma activeDelta_append (a b : List Event) :
    activeDelta (a ++ b) = activeDelta a + activeDelta b := by
  induction a with
  | nil => simp [activeDelta]
  | cons e tr ih => cases e <;> simp [activeDelta, ih] <;> omega

/-- The per-line block of the default reply loop. -/
def defaultBlock (d : Nat) (l : String) : List Event :=
  [.recv l, .sleep d, .send successReply]

/-- The per-line block of the scripted reply loop. -/
def scriptBlock (pl : AgiMsg × String) : List Event :=
  [.recv pl.2, .sleep pl.1.delay, .send (pl.1.msg ++ "\n")]

lemma replyLoopDefault_clean (d : Nat) (ds : List String)
    (h : ∀ l ∈ ds, l ≠ failure ∧ l ≠ hangup) :
    replyLoopDefault d ds = (ds.flatMap (defaultBlock d), .eof) := by
  induction ds with
  | nil => simp [replyLoopDefault]
  | cons l rest ih =>
    have hl := h l (by simp)
    have hr : ∀ x ∈ rest, x ≠ failure ∧ x ≠ hangup := fun x hx => h x (by simp [hx])
    simp [replyLoopDefault, hl.1, hl.2, ih hr, defaultBlock]

lemma replyLoopDefault_hangup (d : Nat) (ds rest : List String)
    (h : ∀ l ∈ ds, l ≠ failure ∧ l ≠ hangup) :
    replyLoopDefault d (ds ++ hangup :: rest) =
      (ds.flatMap (defaultBlock d) ++ [.recv hangup, .send hangupReply], .hungup) := by
  induction ds with
  | nil =>
    have h1 : hangup ≠ failure := by decide
    simp [replyLoopDefault, h1]
  | cons l ds ih =>
    have hl := h l (by simp)
    have hr : ∀ x ∈ ds, x ≠ failure ∧ x ≠ hangup := fun x hx => h x (by simp [hx])
    simp [replyLoopDefault, hl.1, hl.2, ih hr, defaultBlock]

lemma replyLoopDefault_failure (d : Nat) (ds rest : List String)
    (h : ∀ l ∈ ds, l ≠ failure ∧ l ≠ hangup) :
    replyLoopDefault d (ds ++ failure :: rest) =
      (ds.flatMap (defaultBlock d) ++ [.recv failure, .close, .incrFail, .decrActive],
       .failed) := by
  induction ds with
  | nil => simp [replyLoopDefault]
  | cons l ds ih =>
    have hl := h l (by simp)
    have hr : ∀ x ∈ ds, x ≠ failure ∧ x ≠ hangup := fun x hx => h x (by simp [hx])
    simp [replyLoopDefault, hl.1, hl.2, ih hr, defaultBlock]

lemma replyLoopScript_clean (ps : List AgiMsg) (ls : List String)
    (h : ∀ l ∈ ls, l ≠ failure ∧ l ≠ hangup) :
    replyLoopScript ps ls =
      ((ps.zip ls).flatMap scriptBlock,
       if ps.length ≤ ls.length then .exhausted else .eof) := by
  induction ps generalizing ls with
  | nil => simp [replyLoopScript]
  | cons p ps ih =>
    cases ls with
    | nil => simp [replyLoopScript]
    | cons l rest =>
      have hl := h l (by simp)
      have hr : ∀ x ∈ rest, x ≠ failure ∧ x ≠ hangup := fun x hx => h x (by simp [hx])
      simp [replyLoopScript, hl.1, hl.2, ih rest hr, scriptBlock]

lemma replyLoopScript_failure (ps : List AgiMsg) (ds rest : List String)
    (h : ∀ l ∈ ds, l ≠ failure ∧ l ≠ hangup) (hlen : ds.length < ps.length) :
    replyLoopScript ps (ds ++ failure :: rest) =
      ((ps.zip ds).flatMap scriptBlock ++ [.recv failure, .close, .incrFail, .decrActive],
       .failed) := by
  induction ds generalizing ps with
  | nil =>
    cases ps with
    | nil => simp at hlen
    | cons p ps => simp [replyLoopScript]
  | cons l ds ih =>
    cases ps with
    | nil => simp at hlen
    | cons p ps =>
      have hl := h l (by simp)
      have hr : ∀ x ∈ ds, x ≠ failure ∧ x ≠ hangup := fun x hx => h x (by simp [hx])
      have hlen2 : ds.length < ps.length := by simpa using hlen
      simp [replyLoopScript, hl.1, hl.2, ih ps hr hlen2, scriptBlock]

lemma sends_replyLoopScript_le (ps : List AgiMsg) (ls : List String) :
    (sends (replyLoopScript ps ls).1).length ≤ ps.length := by
  induction ps generalizing ls with
  | nil => simp [replyLoopScript, sends]
  | cons p ps ih =>
    cases ls with
    | nil => simp [replyLoopScript, sends]
    | cons l rest =>
      by_cases hf : l = failure
      · simp [replyLoopScript, hf, sends]
      · by_cases hh : l = hangup
        · simp [replyLoopScript, hf, hh, sends]
        · have := ih rest
          simp [replyLoopScript, hf, hh, sends]
          omega

lemma closeCount_replyLoopDefault (d : Nat) (ls : List String) :
    ((replyLoopDefault d ls).2 = .failed ∧ closeCount (replyLoopDefault d ls).1 = 1) ∨
    ((replyLoopDefault d ls).2 ≠ .failed ∧ closeCount (replyLoopDefault d ls).1 = 0) := by
  induction ls with
  | nil => right; simp [replyLoopDefault, closeCount]
  | cons l rest ih =>
    by_cases hf : l = failure
    · left; simp [replyLoopDefault, hf, closeCount]
    · by_cases hh : l = hangup
      · have hne : hangup ≠ failure := by decide
        right; simp [replyLoopDefault, hf, hh, hne, closeCount]
      · rcases ih with ⟨h1, h2⟩ | ⟨h1, h2⟩
        · left; simp [replyLoopDefault, hf, hh, closeCount, h1, h2]
        · right; simp [replyLoopDefault, hf, hh, closeCount, h1, h2]

lemma closeCount_replyLoopScript (ps : List AgiMsg) (ls : List String) :
    ((replyLoopScript ps ls).2 = .failed ∧ closeCount (replyLoopScript ps ls).1 = 1) ∨
    ((replyLoopScript ps ls).2 ≠ .failed ∧ closeCount (replyLoopScript ps ls).1 = 0) := by
  induction ps generalizing ls with
  | nil => right; simp [replyLoopScript, closeCount]
  | cons p ps ih =>
    cases ls with
    | nil => right; simp [replyLoopScript, closeCount]
    | cons l rest =>
      by_cases hf : l = failure
      · left; simp [replyLoopScript, hf, closeCount]
      · by_cases hh : l = hangup
        · have hne : hangup ≠ failure := by decide
          right; simp [replyLoopScript, hf, hh, hne, closeCount]
        · rcases ih rest with ⟨h1, h2⟩ | ⟨h1, h2⟩
          · left; simp [replyLoopScript, hf, hh, closeCount, h1, h2]
          · right; simp [replyLoopScript, hf, hh, closeCount, h1, h2]

lemma sends_flatMap_default (d : Nat) (ds : List String) :
    sends (ds.flatMap (defaultBlock d)) = List.replicate ds.length successReply := by
  induction ds with
  | nil => simp [sends]
  | cons l ds ih =>
    rw [List.flatMap_cons, sends_append, ih]
    simp [defaultBlock, sends, List.replicate_succ]

lemma sleepTotal_flatMap_default (d : Nat) (ds : List String) :
    sleepTotal (ds.flatMap (defaultBlock d)) = d * ds.length := by
  induction ds with
  | nil => simp [sleepTotal]
  | cons l ds ih =>
    rw [List.flatMap_cons, sleepTotal_append, ih]
    simp [defaultBlock, sleepTotal]
    ring

lemma proj_flatMap_default (d : Nat) (ds : List String) :
    closeCount (ds.flatMap (defaultBlock d)) = 0 ∧
    failIncrs (ds.flatMap (defaultBlock d)) = 0 ∧
    countIncrs (ds.flatMap (defaultBlock d)) = 0 ∧
    durs (ds.flatMap (defaultBlock d)) = [] := by
  induction ds with
  | nil => simp [closeCount, failIncrs, countIncrs, durs]
  | cons l ds ih => simpa [defaultBlock, closeCount, failIncrs, countIncrs, durs] using ih

lemma sends_flatMap_script (pls : List (AgiMsg × String)) :
    sends (pls.flatMap scriptBlock) = pls.map fun pl => pl.1.msg ++ "\n" := by
  induction pls with
  | nil => simp [sends]
  | cons pl pls ih =>
    rw [List.flatMap_cons, sends_append, ih]
    simp [scriptBlock, sends]

lemma sleepTotal_flatMap_script (pls : List (AgiMsg × String)) :
    sleepTotal (pls.flatMap scriptBlock) = (pls.map fun pl => pl.1.delay).sum := by
  induction pls with
  | nil => simp [sleepTotal]
  | cons pl pls ih =>
    rw [List.flatMap_cons, sleepTotal_append, ih]
    simp [scriptBlock, sleepTotal]

lemma proj_flatMap_script (pls : List (AgiMsg × String)) :
    closeCount (pls.flatMap scriptBlock) = 0 ∧
    failIncrs (pls.flatMap scriptBlock) = 0 ∧
    countIncrs (pls.flatMap scriptBlock) = 0 ∧
    durs (pls.flatMap scriptBlock) = [] := by
  induction pls with
  | nil => simp [closeCount, failIncrs, countIncrs, durs]
  | cons pl pls ih => simpa [scriptBlock, closeCount, failIncrs, countIncrs, durs] using ih

lemma zip_map_fst {α : Type} (g : AgiMsg → α) (ps : List AgiMsg) (ls : List String) :
    (ps.zip ls).map (fun pl => g pl.1) = (ps.take ls.length).map g := by
  induction ps generalizing ls with
  | nil => simp
  | cons p ps ih =>
    cases ls with
    | nil => simp
    | cons l rest => simp [ih rest]

lemma sends_agiConnection_script_le (env : String) (ps : List AgiMsg) (d : Nat)
    (ls : List String) (extra : Nat) :
    (sends (agiConnection true env (some ps) d ls extra)).length ≤ 1 + ps.length := by
  have hb := sends_replyLoopScript_le ps ls
  cases hexit : (replyLoopScript ps ls).2 <;>
    simp [agiConnection, hexit, sends, sends_append] <;> omega

/-- C10: after a successful connect, every execution path of
`agiConnection` — failure sentinel, hangup acknowledgment, end-of-stream
and script exhaustion — calls `conn.Close()` exactly once before the
worker returns, for every payload, reply delay and inbound-line
sequence. -/
theorem C10_close_exactly_once (env : String) (payload : Option (List AgiMsg))
    (replyDelay : Nat) (ls : List String) (extra : Nat) :
    closeCount (agiConnection true env payload replyDelay ls extra) = 1 := by
  cases payload with
  | none =>
    rcases closeCount_replyLoopDefault replyDelay ls with ⟨h1, h2⟩ | ⟨h1, h2⟩
    · simp [agiConnection, h1, closeCount, h2]
    · cases hexit : (replyLoopDefault replyDelay ls).2 with
      | failed => exact absurd hexit h1
      | hungup => simp [agiConnection, hexit, closeCount, closeCount_append, h2]
      | eof => simp [agiConnection, hexit, closeCount, closeCount_append, h2]
      | exhausted => simp [agiConnection, hexit, closeCount, closeCount_append, h2]
  | some ps =>
    rcases closeCount_replyLoopScript ps ls with ⟨h1, h2⟩ | ⟨h1, h2⟩
    · simp [agiConnection, h1, closeCount, h2]
    · cases hexit : (replyLoopScript ps ls).2 with
      | failed => exact absurd hexit h1
      | hungup => simp [agiConnection, hexit, closeCount, closeCount_append, h2]
      | eof => simp [agiConnection, hexit, closeCount, closeCount_append, h2]
      | exhausted => simp [agiConnection, hexit, closeCount, closeCount_append, h2]

/-- C4: a failed connection attempt increments the failure counter
exactly once and does nothing else: the whole trace is that single
increment, so the worker sends nothing, touches neither the active nor
the completed counter, reports no duration sample, and returns
immediately without retrying. -/
theorem C4_connect_failure (env : String) (payload : Option (List AgiMsg))
    (replyDelay : Nat) (ls : List String) (extra : Nat) :
    agiConnection false env payload replyDelay ls extra = [Event.incrFail] ∧
    failIncrs (agiConnection false env payload replyDelay ls extra) = 1 ∧
    countIncrs (agiConnection false env payload replyDelay ls extra) = 0 ∧
    durs (agiConnection false env payload replyDelay ls extra) = [] ∧
    activeDelta (agiConnection false env payload replyDelay ls extra) = 0 ∧
    sends (agiConnection false env payload replyDelay ls extra) = [] := by
  refine ⟨rfl, ?_, ?_, ?_, ?_, ?_⟩ <;>
    simp [agiConnection, failIncrs, countIncrs, durs, activeDelta, sends]

/-- C2: when an inbound line equals the failure sentinel (after any
number of ordinary lines), the worker closes the connection immediately
without sending any further reply — the trace after the sentinel's recv
holds only the close and the counter updates, and the messages sent are
exactly the replies to the lines before the sentinel — increments the
failure counter exactly once, does not increment the completed counter,
and sends no duration sample, in both the default-reply mode and the
scripted mode. -/
theorem C2_failure_sentinel (env : String) (d extra : Nat) (ds rest : List String)
    (ps : List AgiMsg)
    (hds : ∀ l ∈ ds, l ≠ failure ∧ l ≠ hangup) (hlen : ds.length < ps.length) :
    (agiConnection true env none d (ds ++ failure :: rest) extra
      = Event.incrActive :: Event.send env ::
          (ds.flatMap (defaultBlock d) ++
            [Event.recv failure, Event.close, Event.incrFail, Event.decrActive])) ∧
    failIncrs (agiConnection true env none d (ds ++ failure :: rest) extra) = 1 ∧
    countIncrs (agiConnection true env none d (ds ++ failure :: rest) extra) = 0 ∧
    durs (agiConnection true env none d (ds ++ failure :: rest) extra) = [] ∧
    closeCount (agiConnection true env none d (ds ++ failure :: rest) extra) = 1 ∧
    sends (agiConnection true env none d (ds ++ failure :: rest) extra)
      = env :: List.replicate ds.length successReply ∧
    failIncrs (agiConnection true env (some ps) d (ds ++ failure :: rest) extra) = 1 ∧
    countIncrs (agiConnection true env (some ps) d (ds ++ failure :: rest) extra) = 0 ∧
    durs (agiConnection true env (some ps) d (ds ++ failure :: rest) extra) = [] ∧
    closeCount (agiConnection true env (some ps) d (ds ++ failure :: rest) extra) = 1 ∧
    (agiConnection true env (some ps) d (ds ++ failure :: rest) extra
      = Event.incrActive :: Event.send env ::
          ((ps.zip ds).flatMap scriptBlock ++
            [Event.recv failure, Event.close, Event.incrFail, Event.decrActive])) ∧
    sends (agiConnection true env (some ps) d (ds ++ failure :: rest) extra)
      = env :: (ps.zip ds).map (fun pl => pl.1.msg ++ "\n") := by
  have hd := replyLoopDefault_failure d ds rest hds
  have hsc := replyLoopScript_failure ps ds rest hds hlen
  have hpd := proj_flatMap_default d ds
  have hps := proj_flatMap_script (ps.zip ds)
  refine ⟨?_, ?_, ?_, ?_, ?_, ?_, ?_, ?_, ?_, ?_, ?_, ?_⟩ <;>
    simp [agiConnection, hd, hsc, failIncrs, countIncrs, durs, closeCount, sends,
      failIncrs_append, countIncrs_append, durs_append, closeCount_append, sends_append,
      hpd.1, hpd.2.1, hpd.2.2.1, hpd.2.2.2, hps.1, hps.2.1, hps.2.2.1, hps.2.2.2,
      sends_flatMap_default, sends_flatMap_script]

/-- Closed instance of `C2_failure_sentinel` at a concrete session. -/
theorem C2_failure_sentinel_witness :
    (∀ l ∈ ["d1"], l ≠ failure ∧ l ≠ hangup) ∧
    ([ "d1" ] : List String).length < ([⟨"m", 5⟩, ⟨"n", 6⟩] : List AgiMsg).length ∧
    failIncrs (agiConnection true "E" none 7 (["d1"] ++ failure :: []) 3) = 1 ∧
    countIncrs (agiConnection true "E" none 7 (["d1"] ++ failure :: []) 3) = 0 ∧
    durs (agiConnection true "E" (some [⟨"m", 5⟩, ⟨"n", 6⟩]) 7 (["d1"] ++ failure :: []) 3)
      = [] :=
  ⟨by decide, by decide,
   (C2_failure_sentinel "E" 7 3 ["d1"] [] [⟨"m", 5⟩, ⟨"n", 6⟩] (by decide) (by decide)).2.1,
   (C2_failure_sentinel "E" 7 3 ["d1"] [] [⟨"m", 5⟩, ⟨"n", 6⟩] (by decide) (by decide)).2.2.1,
   (C2_failure_sentinel "E" 7 3 ["d1"] [] [⟨"m", 5⟩, ⟨"n", 6⟩] (by decide)
     (by decide)).2.2.2.2.2.2.2.2.1⟩

/-- C6: a session with no script that receives ordinary lines `ds`
followed by the hangup sentinel answers each ordinary line with exactly
one success reply after sleeping the reply delay, answers the hangup
sentinel with exactly one hangup acknowledgment and no success reply for
that line, closes the connection, and reports exactly one completed
session whose duration is at least the reply delay times the number of
ordinary lines answered. -/
theorem C6_default_session (env : String) (d extra : Nat) (ds : List String)
    (h : ∀ l ∈ ds, l ≠ failure ∧ l ≠ hangup) :
    (agiConnection true env none d (ds ++ [hangup]) extra
      = Event.incrActive :: Event.send env ::
          ((ds.flatMap (defaultBlock d) ++ [Event.recv hangup, Event.send hangupReply]) ++
            [Event.close, Event.sendDur (d * ds.length + extra),
             Event.decrActive, Event.incrCount])) ∧
    sends (agiConnection true env none d (ds ++ [hangup]) extra)
      = env :: (List.replicate ds.length successReply ++ [hangupReply]) ∧
    countIncrs (agiConnection true env none d (ds ++ [hangup]) extra) = 1 ∧
    failIncrs (agiConnection true env none d (ds ++ [hangup]) extra) = 0 ∧
    closeCount (agiConnection true env none d (ds ++ [hangup]) extra) = 1 ∧
    durs (agiConnection true env none d (ds ++ [hangup]) extra)
      = [d * ds.length + extra] ∧
    ∀ x ∈ durs (agiConnection true env none d (ds ++ [hangup]) extra),
      d * ds.length ≤ x := by
  have hd := replyLoopDefault_hangup d ds [] h
  have hpd := proj_flatMap_default d ds
  have hst := sleepTotal_flatMap_default d ds
  have hmain : agiConnection true env none d (ds ++ [hangup]) extra
      = Event.incrActive :: Event.send env ::
          ((ds.flatMap (defaultBlock d) ++ [Event.recv hangup, Event.send hangupReply]) ++
            [Event.close, Event.sendDur (d * ds.length + extra),
             Event.decrActive, Event.incrCount]) := by
    simp [agiConnection, hd, sleepTotal_append, hst, sleepTotal]
  have hdurs : durs (agiConnection true env none d (ds ++ [hangup]) extra)
      = [d * ds.length + extra] := by
    rw [hmain]
    simp [durs, durs_append, hpd.2.2.2]
  refine ⟨hmain, ?_, ?_, ?_, ?_, hdurs, ?_⟩
  · rw [hmain]
    simp [sends, sends_append, sends_flatMap_default]
  · rw [hmain]
    simp [countIncrs, countIncrs_append, hpd.2.2.1]
  · rw [hmain]
    simp [failIncrs, failIncrs_append, hpd.2.1]
  · rw [hmain]
    simp [closeCount, closeCount_append, hpd.1]
  · intro x hx
    rw [hdurs] at hx
    simp at hx
    omega

/-- Closed instance of `C6_default_session` at a concrete session: one
data line, then the hangup sentinel, with a 50 ms reply delay. -/
theorem C6_default_session_witness :
    (∀ l ∈ ["data"], l ≠ failure ∧ l ≠ hangup) ∧
    sends (agiConnection true "E" none 50 (["data"] ++ [hangup]) 3)
      = "E" :: (List.replicate 1 successReply ++ [hangupReply]) ∧
    durs (agiConnection true "E" none 50 (["data"] ++ [hangup]) 3) = [50 * 1 + 3] :=
  ⟨by decide,
   (C6_default_session "E" 50 3 ["data"] (by decide)).2.1,
   by
     have hc := (C6_default_session "E" 50 3 ["data"] (by decide)).2.2.2.2.2.1
     simpa using hc⟩

/-- C7: a session driven by a script of K (message, delay) pairs consumes
the pairs strictly in order, one per inbound line (the zip of pairs and
lines), sends each pair's message only after sleeping that pair's delay
directly after the line was received, stops at script exhaustion or
end-of-stream (whichever comes first), and in every scripted session —
sentinel lines included — sends at most K script messages in total. -/
theorem C7_script_session (env : String) (d extra : Nat) (ps : List AgiMsg)
    (ls : List String) (h : ∀ l ∈ ls, l ≠ failure ∧ l ≠ hangup) :
    (agiConnection true env (some ps) d ls extra
      = Event.incrActive :: Event.send env ::
          ((ps.zip ls).flatMap scriptBlock ++
            [Event.close,
             Event.sendDur (((ps.zip ls).map fun pl => pl.1.delay).sum + extra),
             Event.decrActive, Event.incrCount])) ∧
    sends (agiConnection true env (some ps) d ls extra)
      = env :: (ps.take ls.length).map (fun p => p.msg ++ "\n") ∧
    (∀ (ps2 : List AgiMsg) (ls2 : List String) (d2 e2 : Nat),
      (sends (agiConnection true env (some ps2) d2 ls2 e2)).length ≤ 1 + ps2.length) := by
  have hs := replyLoopScript_clean ps ls h
  have hp := proj_flatMap_script (ps.zip ls)
  have hst := sleepTotal_flatMap_script (ps.zip ls)
  have hmain : agiConnection true env (some ps) d ls extra
      = Event.incrActive :: Event.send env ::
          ((ps.zip ls).flatMap scriptBlock ++
            [Event.close,
             Event.sendDur (((ps.zip ls).map fun pl => pl.1.delay).sum + extra),
             Event.decrActive, Event.incrCount]) := by
    by_cases hle : ps.length ≤ ls.length <;>
      simp [agiConnection, hs, hle, hst]
  refine ⟨hmain, ?_, ?_⟩
  · rw [hmain]
    simp [sends, sends_append, sends_flatMap_script]
    rw [zip_map_fst (fun p => p.msg ++ "\n") ps ls, List.map_take]
  · intro ps2 ls2 d2 e2
    exact sends_agiConnection_script_le env ps2 d2 ls2 e2

/-- Closed instance of `C7_script_session` at a concrete scripted
session: a two-pair script against a single inbound line. -/
theorem C7_script_session_witness :
    (∀ l ∈ ["L"], l ≠ failure ∧ l ≠ hangup) ∧
    sends (agiConnection true "E" (some [⟨"sayhi", 5⟩, ⟨"bye", 9⟩]) 0 ["L"] 4)
      = "E" :: (([⟨"sayhi", 5⟩, ⟨"bye", 9⟩] : List AgiMsg).take 1).map
          (fun p => p.msg ++ "\n") :=
  ⟨by decide,
   by
     have hc := (C7_script_session "E" 0 4 [⟨"sayhi", 5⟩, ⟨"bye", 9⟩] ["L"]
       (by decide)).2.1
     simpa using hc⟩

/-- C8: when the scanner hits end-of-stream before any sentinel line was
received, in either mode, the session ends as a normal completion: the
connection is closed (exactly once), the completed counter is
incremented, the failure counter is not, and the session's duration is
still reported to the aggregator. -/
theorem C8_eof_completion (env : String) (d extra : Nat) (ls : List String)
    (ps : List AgiMsg)
    (h : ∀ l ∈ ls, l ≠ failure ∧ l ≠ hangup) (hlen : ls.length < ps.length) :
    countIncrs (agiConnection true env none d ls extra) = 1 ∧
    failIncrs (agiConnection true env none d ls extra) = 0 ∧
    closeCount (agiConnection true env none d ls extra) = 1 ∧
    durs (agiConnection true env none d ls extra) = [d * ls.length + extra] ∧
    countIncrs (agiConnection true env (some ps) d ls extra) = 1 ∧
    failIncrs (agiConnection true env (some ps) d ls extra) = 0 ∧
    closeCount (agiConnection true env (some ps) d ls extra) = 1 ∧
    durs (agiConnection true env (some ps) d ls extra)
      = [((ps.zip ls).map fun pl => pl.1.delay).sum + extra] := by
  have hd := replyLoopDefault_clean d ls h
  have hs := replyLoopScript_clean ps ls h
  have hnle : ¬ ps.length ≤ ls.length := by omega
  have hpd := proj_flatMap_default d ls
  have hps := proj_flatMap_script (ps.zip ls)
  have hstd := sleepTotal_flatMap_default d ls
  have hsts := sleepTotal_flatMap_script (ps.zip ls)
  refine ⟨?_, ?_, ?_, ?_, ?_, ?_, ?_, ?_⟩ <;>
    simp [agiConnection, hd, hs, hnle, hstd, hsts, countIncrs, countIncrs_append,
      failIncrs, failIncrs_append, closeCount, closeCount_append, durs, durs_append,
      hpd.1, hpd.2.1, hpd.2.2.1, hpd.2.2.2, hps.1, hps.2.1, hps.2.2.1, hps.2.2.2]

/-- Closed instance of `C8_eof_completion`: the peer closes the stream
after one ordinary line, in both modes. -/
theorem C8_eof_completion_witness :
    (∀ l ∈ ["A"], l ≠ failure ∧ l ≠ hangup) ∧
    ([ "A" ] : List String).length < ([⟨"m", 5⟩, ⟨"n", 6⟩] : List AgiMsg).length ∧
    countIncrs (agiConnection true "E" none 7 ["A"] 2) = 1 ∧
    failIncrs (agiConnection true "E" none 7 ["A"] 2) = 0 ∧
    countIncrs (agiConnection true "E" (some [⟨"m", 5⟩, ⟨"n", 6⟩]) 7 ["A"] 2) = 1 :=
  ⟨by decide, by decide,
   (C8_eof_completion "E" 7 2 ["A"] [⟨"m", 5⟩, ⟨"n", 6⟩] (by decide) (by decide)).1,
   (C8_eof_completion "E" 7 2 ["A"] [⟨"m", 5⟩, ⟨"n", 6⟩] (by decide) (by decide)).2.1,
   (C8_eof_completion "E" 7 2 ["A"] [⟨"m", 5⟩, ⟨"n", 6⟩] (by decide)
     (by decide)).2.2.2.2.1⟩

lemma calcStep_eq (a n y : Nat) :
    calcStep ⟨a, n⟩ y =
      if 10000 ≤ n + 1 then ⟨(a * n + y) / (n + 1), 0⟩
      else ⟨(a * n + y) / (n + 1), n + 1⟩ := by
  simp [calcStep]

lemma calcRun_exact (xs : List Nat) : ∀ (n a : Nat), 0 < n → n + xs.length ≤ 10000 →
    (∀ k, 0 < k → k ≤ xs.length → (n + k) ∣ (a * n + (xs.take k).sum)) →
    (calcRun ⟨a, n⟩ xs).avrDur * (n + xs.length) = a * n + xs.sum := by
  induction xs with
  | nil => intro n a hn hle hdvd; simp [calcRun]
  | cons y ys ih =>
    intro n a hn hle hdvd
    have hd1 : (n + 1) ∣ (a * n + y) := by
      have h := hdvd 1 (by omega) (by simp)
      simpa using h
    have hcancel : (a * n + y) / (n + 1) * (n + 1) = a * n + y :=
      Nat.div_mul_cancel hd1
    have hrun : calcRun ⟨a, n⟩ (y :: ys) = calcRun (calcStep ⟨a, n⟩ y) ys := rfl
    rcases Nat.lt_or_ge (n + 1) 10000 with hlt | hge
    · have hstep : calcStep ⟨a, n⟩ y = ⟨(a * n + y) / (n + 1), n + 1⟩ := by
        rw [calcStep_eq]
        simp [Nat.not_le.mpr hlt]
      have hle2 : (n + 1) + ys.length ≤ 10000 := by
        simp at hle
        omega
      have hdvd2 : ∀ k, 0 < k → k ≤ ys.length →
          ((n + 1) + k) ∣ ((a * n + y) / (n + 1) * (n + 1) + (ys.take k).sum) := by
        intro k hk1 hk2
        rw [hcancel]
        have h := hdvd (k + 1) (by omega) (by simp; omega)
        have heq : n + (k + 1) = (n + 1) + k := by omega
        have heq2 : ((y :: ys).take (k + 1)).sum = y + (ys.take k).sum := by simp
        rw [heq, heq2] at h
        have heq3 : a * n + (y + (ys.take k).sum) = a * n + y + (ys.take k).sum := by ring
        rwa [heq3] at h
      have hih := ih (n + 1) ((a * n + y) / (n + 1)) (by omega) hle2 hdvd2
      rw [hrun, hstep]
      have hlen : n + (y :: ys).length = (n + 1) + ys.length := by simp; omega
      rw [hlen]
      rw [hih, hcancel]
      simp
      ring
    · have hys : ys = [] := by
        have hl : ys.length = 0 := by
          simp at hle
          omega
        exact List.length_eq_zero.mp hl
      subst hys
      have hstep : calcStep ⟨a, n⟩ y = ⟨(a * n + y) / (n + 1), 0⟩ := by
        rw [calcStep_eq]
        simp [hge]
      rw [hrun, hstep]
      simp [calcRun]
      simpa using hcancel

/-- C1 counterexample: the rolling average after the N-th update is NOT
in general the arithmetic mean of the N recorded durations.  For the
three durations 3, 0, 0 (integral mean 1) the `calcAvrg` recurrence with
int64 truncated division yields 0: the first update stores 3, the second
stores (3*1+0)/2 = 1, the third stores (1*2+0)/3 = 0. -/
theorem C1_counterexample :
    (calcRun ⟨0, 0⟩ [3, 0, 0]).avrDur = 0 ∧
    ([3, 0, 0] : List Nat).sum / ([3, 0, 0] : List Nat).length = 1 ∧
    (calcRun ⟨0, 0⟩ [3, 0, 0]).avrDur ≠
      ([3, 0, 0] : List Nat).sum / ([3, 0, 0] : List Nat).length := by
  decide

/-- C1 (amended): the rolling average follows the incremental recurrence
`avg = (avg*(n-1) + x) / n` with truncated integer division, so it equals
the arithmetic mean of the window's samples exactly whenever every
incremental division is exact (and only approximates the mean
otherwise); the sample counter resets to zero upon reaching the
10,000-sample window bound; and the first update after a reset stores
exactly that next sample alone, wiping the previous average. -/
theorem C1_rolling_average (a x d : Nat) (rest : List Nat) (s : AvgState)
    (hlen : rest.length + 1 ≤ 10000)
    (hdvd : ∀ k, 0 < k → k ≤ rest.length → (1 + k) ∣ (x + (rest.take k).sum))
    (hs : s.sessions = 9999) :
    (calcRun ⟨a, 0⟩ (x :: rest)).avrDur * (rest.length + 1) = x + rest.sum ∧
    calcStep ⟨a, 0⟩ x = ⟨x, 1⟩ ∧
    (calcStep s d).sessions = 0 := by
  refine ⟨?_, ?_, ?_⟩
  · have hstep : calcStep ⟨a, 0⟩ x = ⟨x, 1⟩ := by
      rw [calcStep_eq]
      simp
    have hrun : calcRun ⟨a, 0⟩ (x :: rest) = calcRun ⟨x, 1⟩ rest := by
      show calcRun (calcStep ⟨a, 0⟩ x) rest = _
      rw [hstep]
    have hdvd2 : ∀ k, 0 < k → k ≤ rest.length → (1 + k) ∣ (x * 1 + (rest.take k).sum) := by
      intro k h1 h2
      simpa using hdvd k h1 h2
    have h := calcRun_exact rest 1 x (by omega) (by omega) hdvd2
    rw [hrun]
    calc (calcRun ⟨x, 1⟩ rest).avrDur * (rest.length + 1)
        = (calcRun ⟨x, 1⟩ rest).avrDur * (1 + rest.length) := by ring
      _ = x * 1 + rest.sum := h
      _ = x + rest.sum := by ring
  · rw [calcStep_eq]
    simp
  · rcases s with ⟨sa, sn⟩
    simp at hs
    subst hs
    rw [calcStep_eq]
    simp

/-- Closed instance of `C1_rolling_average`: samples 5 then 7 (each
incremental division exact, average 6), and a reset at the 10,000th
sample. -/
theorem C1_rolling_average_witness :
    (([7] : List Nat).length + 1 ≤ 10000) ∧
    (∀ k, 0 < k → k ≤ ([7] : List Nat).length →
      (1 + k) ∣ (5 + (([7] : List Nat).take k).sum)) ∧
    ((⟨0, 9999⟩ : AvgState).sessions = 9999) ∧
    ((calcRun ⟨0, 0⟩ (5 :: [7])).avrDur * (([7] : List Nat).length + 1)
        = 5 + ([7] : List Nat).sum ∧
     calcStep ⟨0, 0⟩ 5 = ⟨5, 1⟩ ∧
     (calcStep (⟨0, 9999⟩ : AvgState) 0).sessions = 0) :=
  ⟨by decide,
   by
     intro k h1 h2
     simp at h2
     have hk : k = 1 := by omega
     subst hk
     decide,
   rfl,
   C1_rolling_average 0 5 0 [7] ⟨0, 9999⟩ (by decide)
     (by
       intro k h1 h2
       simp at h2
       have hk : k = 1 := by omega
       subst hk
       decide)
     rfl⟩

/-- Counting abstraction of the concurrent engine (`agiBench`,
`agiConnection`, `consoleOutput`): the shared `Bench` counters, the
shutdown flag, whether `consoleOutput` has reported Stopped (broken out
of its loop), and how many scheduler lanes and sessions are in each
phase of their code.  A lane is idle when it is at the top of its
`for atomic.LoadUint32(&b.Shutdown) == 0` loop, waiting when it has
passed the shutdown check and blocks on `<-ticker`, and done when it has
observed the flag and exited.  A session is dialing before the dial
returns, connected after `Active` was incremented, in the exchange-fail
phase after `Fail` was incremented but before `Active` is decremented,
and in the closing phase of the completion path after `Active` was
decremented but before `Count` is incremented. -/
structure EngState where
  shutdown : Bool
  stopped : Bool
  nIdle : Nat
  nWaiting : Nat
  nLaneDone : Nat
  nDialing : Nat
  nConnected : Nat
  nExchFailed : Nat
  nClosing : Nat
  nDone : Nat
  active : Int
  count : Nat
  fail : Nat
  started : Nat
deriving DecidableEq

/-- Interleaved small-step semantics of the engine.  Each step is one
atomic action of some goroutine: a lane's shutdown-flag check
(agistress.go line 151), a lane's tick-driven launch (line 154), the
operator setting the shutdown flag (line 109), a session's dial failing
(`Fail`++, line 190) or succeeding (`Active`++, line 199), the
exchange-failure path (`Fail`++ then `Active`--, lines 214-215), the
completion path (`Active`-- then `Count`++, lines 263-264), and
`consoleOutput` breaking out once the flag is set and it observes
`Active <= 0` (lines 311-314). -/
inductive Step : EngState → EngState → Prop where
  | laneCheckOk (s : EngState) (h : s.shutdown = false) (h2 : 0 < s.nIdle) :
      Step s { s with nIdle := s.nIdle - 1, nWaiting := s.nWaiting + 1 }
  | laneCheckStop (s : EngState) (h : s.shutdown = true) (h2 : 0 < s.nIdle) :
      Step s { s with nIdle := s.nIdle - 1, nLaneDone := s.nLaneDone + 1 }
  | laneLaunch (s : EngState) (h : 0 < s.nWaiting) :
      Step s { s with nWaiting := s.nWaiting - 1, nIdle := s.nIdle + 1,
                      nDialing := s.nDialing + 1, started := s.started + 1 }
  | requestStop (s : EngState) :
      Step s { s with shutdown := true }
  | connFail (s : EngState) (h : 0 < s.nDialing) :
      Step s { s with nDialing := s.nDialing - 1, nDone := s.nDone + 1,
                      fail := s.fail + 1 }
  | connOk (s : EngState) (h : 0 < s.nDialing) :
      Step s { s with nDialing := s.nDialing - 1, nConnected := s.nConnected + 1,
                      active := s.active + 1 }
  | exchFail (s : EngState) (h : 0 < s.nConnected) :
      Step s { s with nConnected := s.nConnected - 1, nExchFailed := s.nExchFailed + 1,
                      fail := s.fail + 1 }
  | exchFailDec (s : EngState) (h : 0 < s.nExchFailed) :
      Step s { s with nExchFailed := s.nExchFailed - 1, nDone := s.nDone + 1,
                      active := s.active - 1 }
  | completeDec (s : EngState) (h : 0 < s.nConnected) :
      Step s { s with nConnected := s.nConnected - 1, nClosing := s.nClosing + 1,
                      active := s.active - 1 }
  | completeCount (s : EngState) (h : 0 < s.nClosing) :
      Step s { s with nClosing := s.nClosing - 1, nDone := s.nDone + 1,
                      count := s.count + 1 }
  | reportStopped (s : EngState) (h : s.shutdown = true) (h2 : s.active ≤ 0) :
      Step s { s with stopped := true }

/-- Start state of the engine with `lanes` scheduler lanes (`*sess`). -/
def initState (lanes : Nat) : EngState :=
  { shutdown := false, stopped := false, nIdle := lanes, nWaiting := 0, nLaneDone := 0,
    nDialing := 0, nConnected := 0, nExchFailed := 0, nClosing := 0, nDone := 0,
    active := 0, count := 0, fail := 0, started := 0 }

/-- States the engine can reach from its start state. -/
def Reachable (lanes : Nat) (s : EngState) : Prop :=
  Relation.ReflTransGen Step (initState lanes) s

/-- Structural invariant of the engine: the `Active` counter is the
number of sessions holding an increment; `Count + Fail` counts each
finished-or-failing session exactly once; `started` counts every session
phase; lanes are conserved. -/
def Inv (lanes : Nat) (s : EngState) : Prop :=
  s.active = (s.nConnected : Int) + (s.nExchFailed : Int) ∧
  s.count + s.fail = s.nExchFailed + s.nDone ∧
  s.started = s.nDialing + s.nConnected + s.nExchFailed + s.nClosing + s.nDone ∧
  s.nIdle + s.nWaiting + s.nLaneDone = lanes

lemma inv_step {lanes : Nat} {s s2 : EngState} (h : Inv lanes s) (hs : Step s s2) :
    Inv lanes s2 := by
  rcases h with ⟨h1, h2, h3, h4⟩
  cases hs <;> refine ⟨?_, ?_, ?_, ?_⟩ <;> simp_all <;> omega

lemma inv_reachable {lanes : Nat} {s : EngState} (h : Reachable lanes s) :
    Inv lanes s := by
  induction h with
  | refl => refine ⟨?_, ?_, ?_, ?_⟩ <;> simp [initState]
  | tail hr hs ih => exact inv_step ih hs

/-- C3: in every reachable engine state the active-session counter is
≥ 0 and the sum of the completed and failure counters is at most the
total number of sessions started; and whichever step makes
`consoleOutput` report Stopped leaves the active counter at exactly 0
(its guard `Active <= 0` together with `active ≥ 0`). -/
theorem C3_counter_invariants (lanes : Nat) (s s2 : EngState)
    (h : Reachable lanes s) :
    0 ≤ s.active ∧
    s.count + s.fail ≤ s.started ∧
    (Step s s2 → s.stopped = false → s2.stopped = true → s2.active = 0) := by
  have hi := inv_reachable h
  rcases hi with ⟨h1, h2, h3, h4⟩
  refine ⟨?_, ?_, ?_⟩
  · rw [h1]
    positivity
  · omega
  · intro hs hf ht
    cases hs <;> simp_all <;> omega

/-- Closed instance of `C3_counter_invariants` at the start state with
one lane. -/
theorem C3_counter_invariants_witness :
    Reachable 1 (initState 1) ∧
    (0 ≤ (initState 1).active ∧
     (initState 1).count + (initState 1).fail ≤ (initState 1).started ∧
     (Step (initState 1) (initState 1) → (initState 1).stopped = false →
       (initState 1).stopped = true → (initState 1).active = 0)) :=
  ⟨Relation.ReflTransGen.refl,
   C3_counter_invariants 1 (initState 1) (initState 1) Relation.ReflTransGen.refl⟩

/-- C5 counterexample: a worker CAN be launched after stop is requested.
A lane passes its shutdown check while the flag is still clear, the
operator then sets the flag, and the lane's pending tick still fires and
launches a worker: the launch step below starts a new session from a
reachable state in which `shutdown` is already set. -/
theorem C5_counterexample :
    Relation.ReflTransGen Step (initState 1)
      { shutdown := true, stopped := false, nIdle := 0, nWaiting := 1, nLaneDone := 0,
        nDialing := 0, nConnected := 0, nExchFailed := 0, nClosing := 0, nDone := 0,
        active := 0, count := 0, fail := 0, started := 0 } ∧
    Step
      { shutdown := true, stopped := false, nIdle := 0, nWaiting := 1, nLaneDone := 0,
        nDialing := 0, nConnected := 0, nExchFailed := 0, nClosing := 0, nDone := 0,
        active := 0, count := 0, fail := 0, started := 0 }
      { shutdown := true, stopped := false, nIdle := 1, nWaiting := 0, nLaneDone := 0,
        nDialing := 1, nConnected := 0, nExchFailed := 0, nClosing := 0, nDone := 0,
        active := 0, count := 0, fail := 0, started := 1 } := by
  constructor
  · exact Relation.ReflTransGen.tail
      (Relation.ReflTransGen.tail Relation.ReflTransGen.refl
        (Step.laneCheckOk (initState 1) rfl (by decide)))
      (Step.requestStop _)
  · exact Step.laneLaunch _ (by decide)

/-- C5 (amended): a lane moves into the tick wait (and can later launch)
only when the stop signal was clear at its preceding check; once stop is
requested the flag stays set and the number of sessions ever started can
grow only by the lanes already past their check — at most one launch per
lane, `nWaiting ≤ lanes`, after which no further workers are launched;
in-flight sessions are never cancelled (every step conserves `started`
except a launch); and the engine reports Stopped only when the active
counter is exactly 0. -/
theorem C5_scheduler_drain (lanes : Nat) (s s2 t : EngState)
    (h : Reachable lanes s) :
    (Step s s2 → s.nWaiting < s2.nWaiting → s.shutdown = false) ∧
    (s.shutdown = true → Relation.ReflTransGen Step s t →
      t.started + t.nWaiting ≤ s.started + s.nWaiting ∧ t.shutdown = true) ∧
    s.nWaiting ≤ lanes ∧
    (Step s s2 → s2.started ≠ s.started →
      s2.started = s.started + 1 ∧ s2.nDialing = s.nDialing + 1) ∧
    (Step s s2 → s.stopped = false → s2.stopped = true → s2.active = 0) := by
  have hi := inv_reachable h
  rcases hi with ⟨h1, h2, h3, h4⟩
  refine ⟨?_, ?_, ?_, ?_, ?_⟩
  · intro hs hlt
    cases hs <;> simp_all <;> omega
  · intro hshut hrt
    induction hrt with
    | refl => exact ⟨le_refl _, hshut⟩
    | tail hr hs ih =>
      rcases ih with ⟨ihle, ihshut⟩
      constructor
      · cases hs <;> simp_all <;> omega
      · cases hs <;> simp_all
  · omega
  · intro hs hne
    cases hs <;> simp_all
  · intro hs hf ht
    cases hs <;> simp_all <;> omega

/-- Closed instance of `C5_scheduler_drain` at the start state with one
lane. -/
theorem C5_scheduler_drain_witness :
    Reachable 1 (initState 1) ∧
    ((Step (initState 1) (initState 1) →
        (initState 1).nWaiting < (initState 1).nWaiting →
        (initState 1).shutdown = false) ∧
     ((initState 1).shutdown = true →
        Relation.ReflTransGen Step (initState 1) (initState 1) →
        (initState 1).started + (initState 1).nWaiting ≤
          (initState 1).started + (initState 1).nWaiting ∧
        (initState 1).shutdown = true) ∧
     (initState 1).nWaiting ≤ 1 ∧
     (Step (initState 1) (initState 1) →
        (initState 1).started ≠ (initState 1).started →
        (initState 1).started = (initState 1).started + 1 ∧
        (initState 1).nDialing = (initState 1).nDialing + 1) ∧
     (Step (initState 1) (initState 1) → (initState 1).stopped = false →
        (initState 1).stopped = true → (initState 1).active = 0)) :=
  ⟨Relation.ReflTransGen.refl,
   C5_scheduler_drain 1 (initState 1) (initState 1) (initState 1)
     Relation.ReflTransGen.refl⟩

/-- Lines of the handshake environment block built by `agiInit`
(agistress.go lines 322-364): either the configuration file's
environment list verbatim, or the synthesized default block from the CLI
parameters `req`, `host`, `cid`, `ext` and the positional arguments.
The byte block the code returns joins each line with a newline and adds
a terminating blank line (`agiInit` below). -/
def agiInitLines (env : Option (List String)) (req host cid ext : String)
    (args : List String) : List String :=
  match env with
  | some e => e
  | none =>
    ["agi_network: yes"] ++
    (if 0 < req.length then
       ["agi_network_script: " ++ req, "agi_request: agi://" ++ host ++ "/" ++ req]
     else ["agi_request: agi://" ++ host]) ++
    ["agi_channel: SIP/1234-00000000", "agi_language: en", "agi_type: SIP",
     "agi_uniqueid: 1410638774.0", "agi_version: 10.1.1.0",
     "agi_callerid: " ++ cid, "agi_calleridname: " ++ cid,
     "agi_callingpres: 67", "agi_callingani2: 0", "agi_callington: 0",
     "agi_callingtns: 0", "agi_dnid: " ++ ext, "agi_rdnis: unknown",
     "agi_context: default", "agi_extension: " ++ ext, "agi_priority: 1",
     "agi_enhanced: 0.0", "agi_accountcode: ", "agi_threadid: -1281018784"] ++
    (args.enum.map fun p => "agi_arg_" ++ toString (p.1 + 1) ++ ": " ++ p.2)

/-- Byte block returned by `agiInit`: every line followed by a newline,
plus the terminating blank line (`return []byte(envData + "\n")`). -/
def agiInit (env : Option (List String)) (req host cid ext : String)
    (args : List String) : String :=
  String.join ((agiInitLines env req host cid ext args).map (fun l => l ++ "\n")) ++ "\n"

/-- Handshake block written by session number `i`: `benchInit` calls
`agiInit` exactly once and stores the result in `b.Env`, and every
`agiConnection` writes that same `b.Env`, so the block a session sends
does not depend on the session. -/
def sessionHandshake (env : Option (List String)) (req host cid ext : String)
    (args : List String) (_i : Nat) : String :=
  agiInit env req host cid ext args

/-- C9 counterexample: handshake synthesis randomizes nothing — the
unique and thread identifier fields are fixed constants — and the block
is built once and reused for every connection, so two distinct sessions
(sessions 0 and 1 under the default CLI parameters) carry exactly the
same block and hence the SAME unique identifier, not distinct ones. -/
theorem C9_counterexample :
    sessionHandshake none "myagi?file=echo-test" "127.0.0.1" "Unknown" "100" [] 0
      = sessionHandshake none "myagi?file=echo-test" "127.0.0.1" "Unknown" "100" [] 1 ∧
    "agi_uniqueid: 1410638774.0"
      ∈ agiInitLines none "myagi?file=echo-test" "127.0.0.1" "Unknown" "100" [] := by
  exact ⟨rfl, by decide⟩

/-- C9 (amended): synthesis of the handshake block from individual
parameters is fully deterministic given the same inputs — including the
unique and thread identifier fields, which are the fixed constants
`1410638774.0` and `-1281018784` for every choice of parameters — and,
as the block is synthesized once and reused, any two sessions carry the
same unique identifier. -/
theorem C9_handshake_deterministic (req host cid ext : String)
    (args : List String) (i j : Nat) :
    sessionHandshake none req host cid ext args i
      = sessionHandshake none req host cid ext args j ∧
    "agi_uniqueid: 1410638774.0" ∈ agiInitLines none req host cid ext args ∧
    "agi_threadid: -1281018784" ∈ agiInitLines none req host cid ext args := by
  refine ⟨rfl, ?_, ?_⟩ <;>
  · simp only [agiInitLines]
    split <;> simp

end Agistress
